import Mathlib

/-!
Verification development for `gnpy/core/elements.py`: a shallow embedding of
the network-element physics engine (Transceiver, Roadm, Fused, Fiber, Edfa)
over the real numbers, together with theorems settling the specification
claims about it.

Floating-point arithmetic of the source is modelled by exact real arithmetic;
division is Lean's totalized real division.  Presentation-only attributes of
the source (`uid`, `name`, `metadata`, `to_json`, `__repr__`, `__str__`,
`passive`) are identity/serialization concerns out of scope of the claims and
are omitted from the embedding.
-/

namespace GnpyCore

noncomputable section

open Real List

/-! ## Helpers modelled from the spec (from `gnpy.core.utils` / `gnpy.core.info`,
which are not under `src/`) and small numeric helpers. -/

/-- Modelled from the spec: `db2lin` of `gnpy.core.utils` is not under `src/`;
the spec gives the dB-to-linear conversion as `10^(x/10)`. -/
def db2lin (x : ℝ) : ℝ := (10 : ℝ) ^ (x / 10)

/-- Modelled from the spec: `lin2db` of `gnpy.core.utils` is not under `src/`;
the spec gives the linear-to-dB conversion as `10*log10 x`. -/
def lin2db (x : ℝ) : ℝ := 10 * Real.logb 10 x

/-- `numpy.mean` of a list of reals: sum divided by length. -/
def listMean (l : List ℝ) : ℝ := l.sum / l.length

/-- Python `max` over a nonempty list (0 for the empty list, never used there). -/
def listMax : List ℝ → ℝ
  | [] => 0
  | x :: xs => xs.foldl max x

/-- Python `min` over a nonempty list (0 for the empty list, never used there). -/
def listMin : List ℝ → ℝ
  | [] => 0
  | x :: xs => xs.foldl min x

/-- `numpy.polyval(c, x)`: evaluate the polynomial with coefficients `c`
(highest degree first) at `x`, by Horner's rule. -/
def polyval (coeffs : List ℝ) (x : ℝ) : ℝ := coeffs.foldl (fun acc c => acc * x + c) 0

/-- The slope `p[0]` of `numpy.polyfit(xs, ys, 1)`: the least-squares
degree-one fit slope `(n*Σxy - Σx*Σy) / (n*Σx² - (Σx)²)`. -/
def polyfitSlope (xs ys : List ℝ) : ℝ :=
  let n : ℝ := xs.length
  let sx := xs.sum
  let sy := ys.sum
  let sxy := (xs.zipWith (fun a b => a * b) ys).sum
  let sxx := (xs.map (fun a => a ^ 2)).sum
  (n * sxy - sx * sy) / (n * sxx - sx ^ 2)

/-- One query point of `numpy.interp` on an ascending table of
abscissa/ordinate pairs: clamped piecewise-linear interpolation. -/
def interpSorted (t : ℝ) : List (ℝ × ℝ) → ℝ
  | [] => 0
  | [(_, y)] => y
  | (x1, y1) :: (x2, y2) :: rest =>
    if t ≤ x1 then y1
    else if t ≤ x2 then y1 + (y2 - y1) * (t - x1) / (x2 - x1)
    else interpSorted t ((x2, y2) :: rest)

/-- `numpy.interp(t, xp, fp)` for a single query point `t`.  On an empty or
`None` table the source raises (ValueError/TypeError) where this total model
returns 0; no theorem below is exhibited at such a table. -/
def npInterp (t : ℝ) (xp fp : List ℝ) : ℝ := interpSorted t (xp.zip fp)

/-- Python `round(x, 2)`.  Mathlib's `round` rounds half away from zero while
Python rounds half to even; no claim depends on exact-half ties, which are the
only inputs where the two differ. -/
def round2 (x : ℝ) : ℝ := ((round (x * 100) : ℤ) : ℝ) / 100

/-- Modelled from the spec: the ITU grid builder `itufs` of `gnpy.core.utils`
is not under `src/`; the spec only describes the amplifier ripple tables as
per-frequency tables interpolated onto the channel frequencies.  We model the
0.05 THz C-band grid from 191.35 to 196.1 THz (96 points). -/
def itufs (spacing : ℝ) : List ℝ := (List.range 96).map (fun i => 191.35 + spacing * i)

/-- `scipy.constants.c` (m/s). -/
def c_light : ℝ := 299792458

/-- `scipy.constants.h` (J·s). -/
def planck : ℝ := 6.62607015e-34

/-! ## Data model (`gnpy.core.info`, modelled from the spec since `info.py`
is not under `src/`). -/

/-- Modelled from the spec: one carrier's three power components in watts
(`signal_power`, `nli_power`, `ase_power`). -/
structure Power where
  signal : ℝ
  nli : ℝ
  ase : ℝ

/-- Modelled from the spec: one WDM channel's state (`channel_index`,
`frequency` in Hz, `baud_rate` in Hz, powers).  The source spells the
frequency field both `freq` (in `Fiber._psi`) and `frequency`
(in `Edfa.propagate`); they denote the same quantity. -/
structure Carrier where
  num_chan : ℕ
  frequency : ℝ
  baud_rate : ℝ
  power : Power

/-- Alias used by `Fiber._psi` for the carrier center frequency. -/
def Carrier.freq (c : Carrier) : ℝ := c.frequency

/-- Modelled from the spec: the `Pref` record of `gnpy.core.info` is not under
`src/`.  The spec describes `p0` as the launch reference and `pi` as the
current incoming reference that every `update_pref` advances, alongside the
snapshot fields `p_span0`, `p_spani` that the source's `_replace` writes.
Consistency of the two descriptions (the source advances only `p_spani`, yet
the spec's invariant says `pi` is advanced and is read back as the incoming
reference of the next element) requires `p0`/`pi` to read the snapshot
fields, so they are modelled as aliases. -/
structure Pref where
  p_span0 : ℝ
  p_spani : ℝ

/-- Launch reference power (dBm): alias of the `p_span0` snapshot. -/
def Pref.p0 (p : Pref) : ℝ := p.p_span0

/-- Current incoming reference power (dBm): alias of the `p_spani` snapshot. -/
def Pref.pi (p : Pref) : ℝ := p.p_spani

/-- Modelled from the spec: an ordered sequence of carriers plus one power
reference, replaced immutably by every element invocation. -/
structure SpectralInformation where
  carriers : List Carrier
  pref : Pref

/-! ## Transceiver -/

/-- The `Transceiver` diagnostic state (all fields start as Python `None`). -/
structure Transceiver where
  osnr_ase_01nm : Option (List ℝ) := none
  osnr_ase : Option (List ℝ) := none
  osnr_nli : Option (List ℝ) := none
  snr : Option (List ℝ) := none

/-- `Transceiver._calc_snr`: per-carrier OSNR/SNR metrics in dB, stored on the
instance (division-by-zero warnings are suppressed in the source; the
embedding's real division is total). -/
def Transceiver.calc_snr (t : Transceiver) (spectral_info : SpectralInformation) :
    Transceiver :=
  let osnr_ase := spectral_info.carriers.map
    (fun c => lin2db (c.power.signal / c.power.ase))
  let ratio_01nm := spectral_info.carriers.map
    (fun c => lin2db (12.5e9 / c.baud_rate))
  let osnr_ase_01nm := osnr_ase.zipWith (fun ase ratio => ase - ratio) ratio_01nm
  let osnr_nli := spectral_info.carriers.map
    (fun c => lin2db (c.power.signal / c.power.nli))
  let snr := spectral_info.carriers.map
    (fun c => lin2db (c.power.signal / (c.power.nli + c.power.ase)))
  { t with osnr_ase := some osnr_ase, osnr_ase_01nm := some osnr_ase_01nm,
           osnr_nli := some osnr_nli, snr := some snr }

/-- `Transceiver.__call__`: records the SNR diagnostics and returns the
spectral information unchanged. -/
def Transceiver.call (t : Transceiver) (spectral_info : SpectralInformation) :
    Transceiver × SpectralInformation :=
  (t.calc_snr spectral_info, spectral_info)

/-! ## Roadm -/

/-- `RoadmParams` (`loss` defaults to Python `None`, filled by the network
builder before use; we model the loss as a plain real). -/
structure RoadmParams where
  loss : ℝ

/-- The `Roadm` element: a fixed-loss attenuator with a `pch_out` diagnostic. -/
structure Roadm where
  loss : ℝ
  pch_out : Option ℝ := none

/-- `Roadm.propagate`: divide every carrier's signal/nli/ase power by the
linear attenuation `db2lin loss`. -/
def Roadm.propagate (r : Roadm) (carriers : List Carrier) : List Carrier :=
  let attenuation := db2lin r.loss
  carriers.map (fun carrier =>
    { carrier with power := ⟨carrier.power.signal / attenuation,
                             carrier.power.nli / attenuation,
                             carrier.power.ase / attenuation⟩ })

/-- `Roadm.update_pref`: record the `pch_out` diagnostic and replace the
reference with `p_span0 = p0`, `p_spani = pi - loss`. -/
def Roadm.update_pref (r : Roadm) (pref : Pref) : Roadm × Pref :=
  ({ r with pch_out := some (round2 (pref.pi - r.loss)) },
   { pref with p_span0 := pref.p0, p_spani := pref.pi - r.loss })

/-- `Roadm.__call__`. -/
def Roadm.call (r : Roadm) (spectral_info : SpectralInformation) :
    Roadm × SpectralInformation :=
  let carriers := r.propagate spectral_info.carriers
  let rp := r.update_pref spectral_info.pref
  (rp.1, { spectral_info with carriers := carriers, pref := rp.2 })

/-! ## Fused -/

/-- `FusedParams`. -/
structure FusedParams where
  loss : ℝ

/-- The `Fused` element: a fixed-loss splice. -/
structure Fused where
  loss : ℝ

/-- `Fused.__init__`: a missing parameter block defaults the loss to 1 dB. -/
def Fused.init (params : Option FusedParams) : Fused :=
  let params := params.getD ⟨1⟩
  { loss := params.loss }

/-- `Fused.propagate`: identical attenuation transform to `Roadm.propagate`. -/
def Fused.propagate (f : Fused) (carriers : List Carrier) : List Carrier :=
  let attenuation := db2lin f.loss
  carriers.map (fun carrier =>
    { carrier with power := ⟨carrier.power.signal / attenuation,
                             carrier.power.nli / attenuation,
                             carrier.power.ase / attenuation⟩ })

/-- `Fused.update_pref`. -/
def Fused.update_pref (f : Fused) (pref : Pref) : Pref :=
  { pref with p_span0 := pref.p0, p_spani := pref.pi - f.loss }

/-- `Fused.__call__`. -/
def Fused.call (f : Fused) (spectral_info : SpectralInformation) :
    SpectralInformation :=
  { spectral_info with carriers := f.propagate spectral_info.carriers,
                       pref := f.update_pref spectral_info.pref }

/-! ## Fiber -/

/-- `FiberParams` as loaded from the network description (`length` in
`length_units`, `loss_coef` in dB/km). -/
structure FiberParams where
  type_variety : String
  length : ℝ
  loss_coef : ℝ
  length_units : String
  att_in : ℝ
  con_in : ℝ
  con_out : ℝ
  dispersion : ℝ
  gamma : ℝ

/-- The `Fiber` element after `__init__` unit conversion: `length` in m,
`loss_coef` in dB/m, connector/pad losses in dB, `dispersion` in s/m/m,
`gamma` in 1/W/m. -/
structure Fiber where
  type_variety : String := ""
  length : ℝ
  loss_coef : ℝ
  lin_loss_coef : ℝ := 0
  att_in : ℝ
  con_in : ℝ
  con_out : ℝ
  dispersion : ℝ
  gamma : ℝ
  pch_out : Option ℝ := none

/-- Modelled from the spec: the `UNITS` table of `gnpy.core.units` is not
under `src/`; the spec only says `length` is given in `length_units`.  Meters
and kilometers are the units the loader accepts. -/
def UNITS (u : String) : ℝ := if u = "m" then 1 else if u = "km" then 1e3 else 0

/-- `Fiber.__init__`: unit conversion from the parameter block (`length` to m,
`loss_coef` from dB/km to dB/m, `lin_loss_coef` in 1/m). -/
def Fiber.ofParams (p : FiberParams) : Fiber :=
  { type_variety := p.type_variety,
    length := p.length * UNITS p.length_units,
    loss_coef := p.loss_coef * 1e-3,
    lin_loss_coef := p.loss_coef / (20 * Real.logb 10 (Real.exp 1)),
    att_in := p.att_in, con_in := p.con_in, con_out := p.con_out,
    dispersion := p.dispersion, gamma := p.gamma }

/-- `Fiber.fiber_loss`: dB fiber loss without the padding attenuator. -/
def Fiber.fiber_loss (f : Fiber) : ℝ := f.loss_coef * f.length + f.con_in + f.con_out

/-- `Fiber.loss`: total dB loss including the input pad. -/
def Fiber.loss (f : Fiber) : ℝ :=
  f.loss_coef * f.length + f.con_in + f.con_out + f.att_in

/-- `Fiber.lin_attenuation`: linear attenuation of the glass itself. -/
def Fiber.lin_attenuation (f : Fiber) : ℝ := db2lin (f.length * f.loss_coef)

/-- `Fiber.dbkm_2_lin`: power and field-amplitude linear loss coefficients. -/
def Fiber.dbkm_2_lin (f : Fiber) : ℝ × ℝ :=
  (f.loss_coef, f.loss_coef / (2 * 10 * Real.logb 10 (Real.exp 1)))

/-- `Fiber.effective_length`: `(1 - e^(-2αL)) / (2α)`. -/
def Fiber.effective_length (f : Fiber) : ℝ :=
  let alpha := (f.dbkm_2_lin).2
  (1 - Real.exp (-2 * alpha * f.length)) / (2 * alpha)

/-- `Fiber.asymptotic_length`: `1 / (2α)`. -/
def Fiber.asymptotic_length (f : Fiber) : ℝ :=
  let alpha := (f.dbkm_2_lin).2
  1 / (2 * alpha)

/-- `Fiber.beta2` at the default 1550 nm reference wavelength. -/
def Fiber.beta2 (f : Fiber) : ℝ :=
  (1550e-9 : ℝ) ^ 2 * |f.dispersion| / (2 * Real.pi * c_light)

/-- `Fiber._psi`: the phased-mismatch factor, eq. 123 of arXiv:1209.0394
(SCI when the channel indices coincide, XCI otherwise). -/
def Fiber.psi (f : Fiber) (carrier interfering_carrier : Carrier) : ℝ :=
  if carrier.num_chan = interfering_carrier.num_chan then
    Real.arsinh (0.5 * Real.pi ^ 2 * f.asymptotic_length * |f.beta2| *
      carrier.baud_rate ^ 2)
  else
    let delta_f := carrier.freq - interfering_carrier.freq
    Real.arsinh (Real.pi ^ 2 * f.asymptotic_length * |f.beta2| *
        carrier.baud_rate * (delta_f + 0.5 * interfering_carrier.baud_rate)) -
      Real.arsinh (Real.pi ^ 2 * f.asymptotic_length * |f.beta2| *
        carrier.baud_rate * (delta_f - 0.5 * interfering_carrier.baud_rate))

/-- `Fiber._gn_analytic`: nonlinear interference power (W) added to `carrier`
by the whole comb `carriers`, eq. 120 of arXiv:1209.0394. -/
def Fiber.gn_analytic (f : Fiber) (carrier : Carrier) (carriers : List Carrier) : ℝ :=
  let g_nli := (carriers.map (fun interfering_carrier =>
    (interfering_carrier.power.signal / interfering_carrier.baud_rate) ^ 2 *
      (carrier.power.signal / carrier.baud_rate) *
      f.psi carrier interfering_carrier)).sum
  let g_nli_scaled := g_nli * ((16 / 27) * (f.gamma * f.effective_length) ^ 2 /
    (2 * Real.pi * |f.beta2| * f.asymptotic_length))
  carrier.baud_rate * g_nli_scaled

/-- `Fiber.propagate`: apply `con_in + att_in` to the whole comb, compute each
carrier's NLI from the attenuated comb, then apply the fiber linear loss and
`con_out` to signal, nli (incremented by the NLI) and ase. -/
def Fiber.propagate (f : Fiber) (carriers : List Carrier) : List Carrier :=
  let attenuation_in := db2lin (f.con_in + f.att_in)
  let chan := carriers.map (fun carrier =>
    { carrier with power := ⟨carrier.power.signal / attenuation_in,
                             carrier.power.nli / attenuation_in,
                             carrier.power.ase / attenuation_in⟩ })
  let attenuation_out := db2lin f.con_out
  chan.map (fun carrier =>
    let carrier_nli := f.gn_analytic carrier chan
    { carrier with power :=
        ⟨carrier.power.signal / f.lin_attenuation / attenuation_out,
         (carrier.power.nli + carrier_nli) / f.lin_attenuation / attenuation_out,
         carrier.power.ase / f.lin_attenuation / attenuation_out⟩ })

/-- `Fiber.update_pref`: record `pch_out` and decrement the reference by the
total loss. -/
def Fiber.update_pref (f : Fiber) (pref : Pref) : Fiber × Pref :=
  ({ f with pch_out := some (round2 (pref.pi - f.loss)) },
   { pref with p_span0 := pref.p0, p_spani := pref.pi - f.loss })

/-- `Fiber.__call__`. -/
def Fiber.call (f : Fiber) (spectral_info : SpectralInformation) :
    Fiber × SpectralInformation :=
  let carriers := f.propagate spectral_info.carriers
  let fp := f.update_pref spectral_info.pref
  (fp.1, { spectral_info with carriers := carriers, pref := fp.2 })

/-! ## Edfa -/

/-- The noise-figure model constants (`nf_model` built by the equipment
loader; Python stores `None` when absent, the absent fields are simply never
read by the branch that runs). -/
structure NFModel where
  nf0 : ℝ := 0
  nf1 : ℝ := 0
  nf2 : ℝ := 0
  delta_p : ℝ := 0
  nf_coef : List ℝ := []

/-- `EdfaParams`.  The field defaults mirror the `params == {}` branch of the
source, whose `None`-valued tables are modelled as empty lists / zero
records; they are construction-time placeholders on which the source's
propagation would raise inside `np.interp`/`np.polyval`, so every concrete
amplifier used by a theorem's exhibit populates real 96-point tables and a
real fit-coefficient list instead. -/
structure EdfaParams where
  type_variety : String := ""
  type_def : String := ""
  gain_flatmax : ℝ := 0
  gain_min : ℝ := 0
  p_max : ℝ := 0
  nf_model : NFModel := {}
  nf_fit_coeff : List ℝ := []
  nf_ripple : List ℝ := []
  dgt : List ℝ := []
  gain_ripple : List ℝ := []
  out_voa_auto : Bool := false

/-- `EdfaOperational` (`out_voa` defaults to Python `None`; it is always set
by the network builder before propagation, so it is modelled as a real). -/
structure EdfaOperational where
  gain_target : ℝ
  tilt_target : ℝ
  out_voa : ℝ := 0

/-- The `Edfa` element: immutable-by-intent configuration plus the per-call
derived diagnostic fields that `__init__` starts as `None`/unset (modelled
with neutral defaults; each is written before it is read, except `dp_db`
and `target_pch_db` which are genuinely optional). -/
structure Edfa where
  params : EdfaParams
  operational : EdfaOperational
  interpol_dgt : List ℝ := []
  interpol_gain_ripple : List ℝ := []
  interpol_nf_ripple : List ℝ := []
  channel_freq : List ℝ := []
  nf : List ℝ := []
  gprofile : List ℝ := []
  pin_db : ℝ := 0
  nch : ℕ := 0
  pout_db : ℝ := 0
  dp_db : Option ℝ := none
  target_pch_db : Option ℝ := none
  effective_pch_db : Option ℝ := none
  effective_gain : ℝ
  att_in : ℝ := 0

/-- `Edfa.__init__`: the only derived field with a meaningful initial value is
`effective_gain = operational.gain_target`. -/
def Edfa.init (params : EdfaParams) (operational : EdfaOperational) : Edfa :=
  { params := params, operational := operational,
    effective_gain := operational.gain_target }

/-- The input-attenuation pad of `Edfa._calc_nf`:
`max(gain_min - effective_gain, 0)`. -/
def Edfa.nfPad (e : Edfa) : ℝ := max (e.params.gain_min - e.effective_gain) 0

/-- The model-variant average noise figure of `Edfa._calc_nf`, parameterized
by the local `gain_target` value used for the model lookup (the source binds
it as a local variable). -/
def Edfa.nfAvgAt (e : Edfa) (gain_target : ℝ) : ℝ :=
  let dg := max (e.params.gain_flatmax - gain_target) 0
  if e.params.type_def = "variable_gain" then
    let g1a := gain_target - e.params.nf_model.delta_p - dg
    lin2db (db2lin e.params.nf_model.nf1 + db2lin e.params.nf_model.nf2 / db2lin g1a)
  else if e.params.type_def = "fixed_gain" then
    e.params.nf_model.nf0
  else if e.params.type_def = "openroadm" then
    let pin_ch := e.pin_db - lin2db (e.nch : ℝ)
    polyval e.params.nf_model.nf_coef pin_ch
  else
    polyval e.params.nf_fit_coeff (min gain_target e.params.gain_flatmax)

/-- `Edfa._calc_nf` with the default `avg=False`: per-channel noise figure
`interpol_nf_ripple + nf_avg + pad` (with `avg=True` the source returns the
scalar `nf_avg + pad` instead; that variant is not called here). -/
def Edfa.calc_nf (e : Edfa) : List ℝ :=
  let pad := e.nfPad
  let gain_target := e.effective_gain + pad
  let nf_avg := e.nfAvgAt gain_target
  e.interpol_nf_ripple.map (fun r => r + nf_avg + pad)

/-- `Edfa.noise_profile`: per-channel ASE power (W) at the amplifier input,
`h * baud_rate * frequency * db2lin nf`. -/
def Edfa.noise_profile (e : Edfa) (df : List ℝ) : List ℝ :=
  List.zipWith3 (fun b f n => planck * b * f * db2lin n) df e.channel_freq e.nf

/-! `Edfa._gain_profile`, factored into the source's local values
(`err_tolerance` keeps its default `1.0e-11` and `simple_opt` its default
`True`, the only values used by the callers). -/

/-- Slope of the degree-one polyfit of `interpol_dgt` against channel index. -/
def Edfa.dgt_slope (e : Edfa) : ℝ :=
  polyfitSlope ((List.range e.interpol_dgt.length).map (fun i => (i : ℝ)))
    e.interpol_dgt

/-- Target tilt slope per channel (equal channel spacing assumed).  For a
single-channel comb the source's division is Python `x / 0` and raises
ZeroDivisionError; the model's division is total, and the flat-amplifier
theorem therefore assumes at least two channels, the source's feasible
domain. -/
def Edfa.targ_slope (e : Edfa) : ℝ :=
  e.operational.tilt_target / ((e.interpol_dgt.length : ℝ) - 1)

/-- First DGT scaling estimate (zero when the dgt is essentially flat). -/
def Edfa.dgts1 (e : Edfa) : ℝ :=
  if 0.001 < |e.dgt_slope| then e.targ_slope / e.dgt_slope else 0

/-- First per-channel Er gain estimate
`gain_ripple + gain_flatmax + dgt * dgts1`. -/
def Edfa.g1st (e : Edfa) : List ℝ :=
  e.interpol_gain_ripple.zipWith
    (fun r d => r + e.params.gain_flatmax + d * e.dgts1) e.interpol_dgt

/-- Implied output VOA: mean linear gain of `g1st` minus the target gain. -/
def Edfa.voa (e : Edfa) : ℝ :=
  lin2db (listMean (e.g1st.map db2lin)) - e.effective_gain

/-- Second per-channel gain estimate `g1st - voa`. -/
def Edfa.g2nd (e : Edfa) : List ℝ := e.g1st.map (fun g => g - e.voa)

/-- `lin2db(sum(pin*1e3*db2lin(g)))`: total output power (dBm) for the input
profile `pin` under the per-channel gain profile `g`. -/
def poutDb (pin g : List ℝ) : ℝ :=
  lin2db ((pin.zipWith (fun p gi => p * 1e3 * db2lin gi) g).sum)

/-- Second DGT scaling estimate. -/
def Edfa.dgts2 (e : Edfa) (pin : List ℝ) : ℝ :=
  e.effective_gain - (poutDb pin e.g2nd - e.pin_db)

/-- Center tilt-scaling point `xcent = dgts2`. -/
def Edfa.xcent (e : Edfa) (pin : List ℝ) : ℝ := e.dgts2 pin

/-- Per-channel gain profile at tilt scaling `x`: `g1st - voa + dgt * x`. -/
def Edfa.gProfileAt (e : Edfa) (x : ℝ) : List ℝ :=
  e.g2nd.zipWith (fun g d => g + d * x) e.interpol_dgt

/-- Achieved average gain at tilt scaling `x`. -/
def Edfa.gavgAt (e : Edfa) (pin : List ℝ) (x : ℝ) : ℝ :=
  poutDb pin (e.gProfileAt x) - e.pin_db

/-- Ripple spread `deltax = max(g1st) - min(g1st)`. -/
def Edfa.deltax (e : Edfa) : ℝ := listMax e.g1st - listMin e.g1st

/-- Lower tilt-scaling evaluation point. -/
def Edfa.xlow (e : Edfa) (pin : List ℝ) : ℝ := e.dgts2 pin - e.deltax

/-- Upper tilt-scaling evaluation point. -/
def Edfa.xhigh (e : Edfa) (pin : List ℝ) : ℝ := e.dgts2 pin + e.deltax

/-- Left secant slope of the achieved average gain around the center point. -/
def Edfa.slope1 (e : Edfa) (pin : List ℝ) : ℝ :=
  (e.gavgAt pin (e.xlow pin) - e.gavgAt pin (e.xcent pin)) /
    (e.xlow pin - e.xcent pin)

/-- Right secant slope of the achieved average gain around the center point. -/
def Edfa.slope2 (e : Edfa) (pin : List ℝ) : ℝ :=
  (e.gavgAt pin (e.xcent pin) - e.gavgAt pin (e.xhigh pin)) /
    (e.xcent pin - e.xhigh pin)

/-- Final tilt scaling: the center estimate when already within tolerance,
otherwise one linear correction step on the side the target falls on.  When
the chosen secant slope is exactly zero (a flat dgt with non-flat ripple) the
source's numpy division yields an infinite step and `dgt * inf` then
NaN-poisons the profile, while this model's total division returns the center
estimate; no exhibit below reaches that division with a zero slope (the C7
counterexample has nonzero slopes, and the amended-C7 witness takes the
within-tolerance branch, which the source evaluates without dividing by a
slope). -/
def Edfa.dgts3 (e : Edfa) (pin : List ℝ) : ℝ :=
  if |e.effective_gain - e.gavgAt pin (e.xcent pin)| ≤ 1.0e-11 then
    e.xcent pin
  else if e.effective_gain < e.gavgAt pin (e.xcent pin) then
    e.xcent pin - (e.gavgAt pin (e.xcent pin) - e.effective_gain) / e.slope1 pin
  else
    e.xcent pin + (-(e.gavgAt pin (e.xcent pin)) + e.effective_gain) / e.slope2 pin

/-- `Edfa._gain_profile`: the degenerate flat-ripple branch returns
`g1st - voa` directly; otherwise the profile at the corrected tilt scaling. -/
def Edfa.gain_profile (e : Edfa) (pin : List ℝ) : List ℝ :=
  if |e.deltax| ≤ 0.05 then e.g2nd else e.gProfileAt (e.dgts3 pin)

/-- `Edfa.interpol_params`: interpolate the ripple tables onto the channel
grid, select and saturation-clamp the effective gain, compute noise figure and
gain profile, and store all of it (including the write-back of
`operational.gain_target = effective_gain` performed by the source's last
line) on the returned element state. -/
def Edfa.interpol_params (e : Edfa) (frequencies pin baud_rates : List ℝ)
    (pref : Pref) : Edfa :=
  let amplifier_freq := (itufs 0.05).map (fun f => f * 1e12)
  let interpol_dgt := frequencies.map (fun f => npInterp f amplifier_freq e.params.dgt)
  let interpol_gain_ripple :=
    frequencies.map (fun f => npInterp f amplifier_freq e.params.gain_ripple)
  let interpol_nf_ripple :=
    frequencies.map (fun f => npInterp f amplifier_freq e.params.nf_ripple)
  let nch := frequencies.length
  let pin_db := lin2db ((pin.map (fun p => p * 1e3)).sum)
  let target_pch_db := match e.dp_db with
    | some dp => some (round2 (dp + pref.p0))
    | none => e.target_pch_db
  let gain0 := match e.dp_db with
    | some dp => round2 (dp + pref.p0) - pref.pi
    | none => e.operational.gain_target
  let effective_gain := min gain0 (e.params.p_max - pin_db)
  let effective_pch_db := round2 (pref.pi + effective_gain)
  let e1 := { e with channel_freq := frequencies,
                     interpol_dgt := interpol_dgt,
                     interpol_gain_ripple := interpol_gain_ripple,
                     interpol_nf_ripple := interpol_nf_ripple,
                     nch := nch, pin_db := pin_db,
                     target_pch_db := target_pch_db,
                     effective_gain := effective_gain,
                     effective_pch_db := some effective_pch_db }
  let e2 := { e1 with nf := e1.calc_nf, att_in := e1.nfPad }
  let e3 := { e2 with gprofile := e2.gain_profile pin }
  let pout := List.zipWith3 (fun p a g => (p + a) * db2lin g)
    pin (e3.noise_profile baud_rates) e3.gprofile
  let pout_db := lin2db ((pout.map (fun p => p * 1e3)).sum)
  { e3 with pout_db := pout_db,
            operational := { e3.operational with gain_target := e3.effective_gain } }

/-- `Edfa.propagate`: run `interpol_params` on the comb, then apply the gain
profile, add ASE, and divide by the output VOA. -/
def Edfa.propagate (e : Edfa) (pref : Pref) (carriers : List Carrier) :
    Edfa × List Carrier :=
  let pin := carriers.map (fun c => c.power.signal + c.power.nli + c.power.ase)
  let freq := carriers.map (fun c => c.frequency)
  let brate := carriers.map (fun c => c.baud_rate)
  let e1 := e.interpol_params freq pin brate pref
  let gains := e1.gprofile.map db2lin
  let carrier_ases := e1.noise_profile brate
  let att := db2lin e1.operational.out_voa
  (e1, List.zipWith3 (fun gain carrier_ase (carrier : Carrier) =>
    { carrier with power := ⟨carrier.power.signal * gain / att,
                             carrier.power.nli * gain / att,
                             (carrier.power.ase + carrier_ase) * gain / att⟩ })
    gains carrier_ases carriers)

/-- `Edfa.update_pref`: advance the reference by `effective_gain - out_voa`. -/
def Edfa.update_pref (e : Edfa) (pref : Pref) : Pref :=
  { pref with p_span0 := pref.p0,
              p_spani := pref.pi + e.effective_gain - e.operational.out_voa }

/-- `Edfa.__call__`: propagate (which updates the element state through
`interpol_params`), then update the reference with the updated state. -/
def Edfa.call (e : Edfa) (spectral_info : SpectralInformation) :
    Edfa × SpectralInformation :=
  let ec := e.propagate spectral_info.pref spectral_info.carriers
  let pref := ec.1.update_pref spectral_info.pref
  (ec.1, { spectral_info with carriers := ec.2, pref := pref })

/-! ## General lemmas about the helpers -/

theorem lin2db_db2lin (x : ℝ) : lin2db (db2lin x) = x := by
  have h10 : (1 : ℝ) < 10 := by norm_num
  rw [db2lin, lin2db, Real.logb_rpow (by norm_num) (by norm_num)]
  ring

theorem db2lin_pos (x : ℝ) : 0 < db2lin x :=
  Real.rpow_pos_of_pos (by norm_num) _

theorem zipWith_map_same {α β γ δ : Type} (h : β → γ → δ) (f : α → β) (g : α → γ) :
    ∀ l : List α, List.zipWith h (l.map f) (l.map g) = l.map (fun x => h (f x) (g x))
  | [] => rfl
  | x :: xs => by simp [zipWith_map_same h f g xs]

/-! ## Claim theorems -/

/-- C1: every element's update of the power reference advances `pi` by exactly
the dB effect the element applies to a reference channel (decrement by `loss`
for Fused, Roadm and Fiber; advance by `effective_gain - out_voa` for the
amplifier) and records `p_span0 = p0` in the same call. -/
theorem c1_update_pref_reference_accounting (fu : Fused) (r : Roadm) (fi : Fiber)
    (e : Edfa) (p : Pref) :
    ((fu.update_pref p).pi = p.pi - fu.loss ∧ (fu.update_pref p).p_span0 = p.p0) ∧
    ((r.update_pref p).2.pi = p.pi - r.loss ∧ (r.update_pref p).2.p_span0 = p.p0) ∧
    ((fi.update_pref p).2.pi = p.pi - fi.loss ∧ (fi.update_pref p).2.p_span0 = p.p0) ∧
    ((e.update_pref p).pi = p.pi + e.effective_gain - e.operational.out_voa ∧
      (e.update_pref p).p_span0 = p.p0) :=
  ⟨⟨rfl, rfl⟩, ⟨rfl, rfl⟩, ⟨rfl, rfl⟩, ⟨rfl, rfl⟩⟩

/-- C4: the computed per-channel noise figure equals the interpolated
nf ripple plus the model-variant average NF plus the pad
`max(gain_min - effective_gain, 0)`, where the gain used for the NF model
lookup is `effective_gain + pad`. -/
theorem c4_noise_figure_formula (e : Edfa) :
    e.calc_nf = e.interpol_nf_ripple.map (fun r =>
      r + e.nfAvgAt (e.effective_gain + max (e.params.gain_min - e.effective_gain) 0)
        + max (e.params.gain_min - e.effective_gain) 0) := rfl

/-- C6: a fiber with zero nonlinear coefficient adds exactly zero NLI to every
carrier regardless of the comb, its propagation is the pure attenuation
transform, and its total loss is `loss_coef*length + con_in + con_out + att_in`. -/
theorem c6_zero_gamma_fiber (f : Fiber) (h : f.gamma = 0) :
    (∀ carrier carriers, f.gn_analytic carrier carriers = 0) ∧
    (∀ carriers, f.propagate carriers = carriers.map (fun c =>
      { c with power :=
          ⟨c.power.signal / db2lin (f.con_in + f.att_in) / f.lin_attenuation /
             db2lin f.con_out,
           c.power.nli / db2lin (f.con_in + f.att_in) / f.lin_attenuation /
             db2lin f.con_out,
           c.power.ase / db2lin (f.con_in + f.att_in) / f.lin_attenuation /
             db2lin f.con_out⟩ })) ∧
    f.loss = f.loss_coef * f.length + f.con_in + f.con_out + f.att_in := by
  have hnli : ∀ carrier carriers, f.gn_analytic carrier carriers = 0 := by
    intro carrier carriers
    simp [Fiber.gn_analytic, h]
  refine ⟨hnli, ?_, rfl⟩
  intro carriers
  simp only [Fiber.propagate, hnli, add_zero, List.map_map]
  rfl

/-- A concrete zero-gamma fiber used to witness C6. -/
def fibW : Fiber :=
  { length := 80000, loss_coef := 0.0002, att_in := 0, con_in := 0.5,
    con_out := 0.5, dispersion := 1.67e-5, gamma := 0 }

/-- A concrete carrier used by witnesses. -/
def carW : Carrier :=
  { num_chan := 1, frequency := 193.1e12, baud_rate := 32e9,
    power := ⟨1e-3, 0, 0⟩ }

/-- Witness for C6 at a concrete zero-gamma fiber and comb. -/
theorem c6_zero_gamma_fiber_witness :
    fibW.gamma = 0 ∧ fibW.gn_analytic carW [carW] = 0 :=
  ⟨rfl, (c6_zero_gamma_fiber fibW rfl).1 carW [carW]⟩

/-- C8: through a Fused or Roadm element of loss L dB every carrier keeps all
its fields except that each of the three power components is divided exactly
by `10^(L/10)`. -/
theorem c8_passive_attenuation (r : Roadm) (fu : Fused) (carriers : List Carrier) :
    r.propagate carriers = carriers.map (fun c =>
      { c with power := ⟨c.power.signal / (10 : ℝ) ^ (r.loss / 10),
                         c.power.nli / (10 : ℝ) ^ (r.loss / 10),
                         c.power.ase / (10 : ℝ) ^ (r.loss / 10)⟩ }) ∧
    fu.propagate carriers = carriers.map (fun c =>
      { c with power := ⟨c.power.signal / (10 : ℝ) ^ (fu.loss / 10),
                         c.power.nli / (10 : ℝ) ^ (fu.loss / 10),
                         c.power.ase / (10 : ℝ) ^ (fu.loss / 10)⟩ }) :=
  ⟨rfl, rfl⟩

/-- C9: the transceiver returns its input spectral information unchanged and
computes, per carrier, `snr = 10*log10(signal/(nli+ase))` and
`osnr_ase_01nm = osnr_ase - 10*log10(12.5e9/baud_rate)`. -/
theorem c9_transceiver_snr (t : Transceiver) (si : SpectralInformation) :
    (t.call si).2 = si ∧
    (t.call si).1.snr = some (si.carriers.map (fun c =>
      10 * Real.logb 10 (c.power.signal / (c.power.nli + c.power.ase)))) ∧
    (t.call si).1.osnr_ase_01nm = some (si.carriers.map (fun c =>
      10 * Real.logb 10 (c.power.signal / c.power.ase) -
        10 * Real.logb 10 (12.5e9 / c.baud_rate))) := by
  refine ⟨rfl, rfl, ?_⟩
  simp only [Transceiver.call, Transceiver.calc_snr, zipWith_map_same, lin2db]

/-- C10: a Fused element constructed with no parameter block defaults its loss
to 1 dB, and so attenuates every power component of every carrier by the
factor `10^0.1` on each propagation. -/
theorem c10_fused_default_loss :
    (Fused.init none).loss = 1 ∧
    ∀ carriers, (Fused.init none).propagate carriers = carriers.map (fun c =>
      { c with power := ⟨c.power.signal / (10 : ℝ) ^ (0.1 : ℝ),
                         c.power.nli / (10 : ℝ) ^ (0.1 : ℝ),
                         c.power.ase / (10 : ℝ) ^ (0.1 : ℝ)⟩ }) := by
  have hd : db2lin (Fused.init none).loss = (10 : ℝ) ^ (0.1 : ℝ) := by
    norm_num [db2lin, Fused.init]
  refine ⟨rfl, fun carriers => ?_⟩
  simp only [Fused.propagate, hd]

/-- The uniform input-side attenuation transform of `Fiber.propagate`
(division of all three power components by the linear attenuation `A`),
named so that theorems can refer to the attenuated comb. -/
def attIn (A : ℝ) (c : Carrier) : Carrier :=
  { c with power := ⟨c.power.signal / A, c.power.nli / A, c.power.ase / A⟩ }

/-- C3: fiber propagation applies `con_in + att_in` to every carrier first,
computes each carrier's NLI from the post-input-attenuation powers of the
whole comb, and adds that NLI to the carrier's nli power before the fiber
linear loss and `con_out` divide signal, nli and ase uniformly. -/
theorem c3_fiber_propagation_order (f : Fiber) (carriers : List Carrier) (i : ℕ)
    (h : i < carriers.length) :
    (f.propagate carriers)[i]? = some
      { carriers[i] with power :=
          ⟨carriers[i].power.signal / db2lin (f.con_in + f.att_in) /
             f.lin_attenuation / db2lin f.con_out,
           (carriers[i].power.nli / db2lin (f.con_in + f.att_in) +
             f.gn_analytic (attIn (db2lin (f.con_in + f.att_in)) carriers[i])
               (carriers.map (attIn (db2lin (f.con_in + f.att_in))))) /
             f.lin_attenuation / db2lin f.con_out,
           carriers[i].power.ase / db2lin (f.con_in + f.att_in) /
             f.lin_attenuation / db2lin f.con_out⟩ } := by
  simp only [Fiber.propagate, List.getElem?_map, List.getElem?_eq_getElem h,
    Option.map_some']
  rfl

/-- Witness for C3 at a concrete fiber and single-carrier comb. -/
theorem c3_fiber_propagation_order_witness :
    0 < ([carW] : List Carrier).length ∧
    (fibW.propagate [carW])[0]? = some
      { carW with power :=
          ⟨carW.power.signal / db2lin (fibW.con_in + fibW.att_in) /
             fibW.lin_attenuation / db2lin fibW.con_out,
           (carW.power.nli / db2lin (fibW.con_in + fibW.att_in) +
             fibW.gn_analytic (attIn (db2lin (fibW.con_in + fibW.att_in)) carW)
               ([carW].map (attIn (db2lin (fibW.con_in + fibW.att_in))))) /
             fibW.lin_attenuation / db2lin fibW.con_out,
           carW.power.ase / db2lin (fibW.con_in + fibW.att_in) /
             fibW.lin_attenuation / db2lin fibW.con_out⟩ } :=
  ⟨by norm_num, c3_fiber_propagation_order fibW [carW] 0 (by norm_num)⟩

theorem interpSorted_zero (t : ℝ) :
    ∀ l : List (ℝ × ℝ), (∀ p ∈ l, p.2 = 0) → interpSorted t l = 0
  | [], _ => rfl
  | [(x, y)], h => by simpa using h (x, y) (by simp)
  | (x1, y1) :: (x2, y2) :: rest, h => by
    have h1 : y1 = 0 := h (x1, y1) (by simp)
    have h2 : y2 = 0 := h (x2, y2) (by simp)
    have hrest : ∀ p ∈ (x2, y2) :: rest, p.2 = 0 := by
      intro p hp
      exact h p (List.mem_cons_of_mem _ hp)
    rw [interpSorted]
    split
    · exact h1
    · split
      · rw [h1, h2]; ring
      · exact interpSorted_zero t ((x2, y2) :: rest) hrest

theorem npInterp_zero (t : ℝ) (xp fp : List ℝ) (h : ∀ y ∈ fp, y = 0) :
    npInterp t xp fp = 0 := by
  apply interpSorted_zero
  intro p hp
  exact h p.2 (List.of_mem_zip hp).2

theorem listMean_replicate (n : ℕ) (hn : n ≠ 0) (x : ℝ) :
    listMean (List.replicate n x) = x := by
  simp only [listMean, List.sum_replicate, List.length_replicate, nsmul_eq_mul]
  exact mul_div_cancel_left₀ x (Nat.cast_ne_zero.2 hn)

theorem foldl_max_replicate (c : ℝ) : ∀ m : ℕ, (List.replicate m c).foldl max c = c
  | 0 => rfl
  | m + 1 => by
    simp only [List.replicate, List.foldl_cons, max_self]
    exact foldl_max_replicate c m

theorem foldl_min_replicate (c : ℝ) : ∀ m : ℕ, (List.replicate m c).foldl min c = c
  | 0 => rfl
  | m + 1 => by
    simp only [List.replicate, List.foldl_cons, min_self]
    exact foldl_min_replicate c m

theorem listMax_replicate (n : ℕ) (hn : n ≠ 0) (c : ℝ) :
    listMax (List.replicate n c) = c := by
  obtain ⟨m, rfl⟩ := Nat.exists_eq_succ_of_ne_zero hn
  simp only [List.replicate, listMax]
  exact foldl_max_replicate c m

theorem listMin_replicate (n : ℕ) (hn : n ≠ 0) (c : ℝ) :
    listMin (List.replicate n c) = c := by
  obtain ⟨m, rfl⟩ := Nat.exists_eq_succ_of_ne_zero hn
  simp only [List.replicate, listMin]
  exact foldl_min_replicate c m

theorem zipWith_replicate {α β γ : Type} (f : α → β → γ) (a : α) (b : β) :
    ∀ n : ℕ, List.zipWith f (List.replicate n a) (List.replicate n b) =
      List.replicate n (f a b)
  | 0 => rfl
  | n + 1 => by
    simp only [List.replicate, List.zipWith_cons_cons]
    rw [zipWith_replicate f a b n]

/-- C5: an amplifier whose dgt and gain ripple tables are all zero and whose
configured 20 dB gain target is in effect takes the degenerate flat-ripple
branch of the gain-profile solver and returns a uniform 20 dB profile for
every channel, independent of the per-channel input power distribution. -/
theorem c5_flat_ripple_gain_profile (e : Edfa) (frequencies pin : List ℝ)
    (hdgt0 : ∀ x ∈ e.params.dgt, x = 0)
    (hrip0 : ∀ x ∈ e.params.gain_ripple, x = 0)
    (hidgt : e.interpol_dgt = frequencies.map (fun f =>
      npInterp f ((itufs 0.05).map (fun g => g * 1e12)) e.params.dgt))
    (hirip : e.interpol_gain_ripple = frequencies.map (fun f =>
      npInterp f ((itufs 0.05).map (fun g => g * 1e12)) e.params.gain_ripple))
    (hlen : 2 ≤ frequencies.length)
    (hg : e.effective_gain = e.operational.gain_target)
    (h20 : e.operational.gain_target = 20) :
    e.gain_profile pin = List.replicate frequencies.length 20 := by
  have hlen : frequencies.length ≠ 0 := by omega
  have hdz : e.interpol_dgt = List.replicate frequencies.length 0 := by
    rw [hidgt]
    refine List.eq_replicate_iff.2 ⟨by simp, ?_⟩
    intro b hb
    obtain ⟨f, _, rfl⟩ := List.mem_map.1 hb
    exact npInterp_zero _ _ _ hdgt0
  have hrz : e.interpol_gain_ripple = List.replicate frequencies.length 0 := by
    rw [hirip]
    refine List.eq_replicate_iff.2 ⟨by simp, ?_⟩
    intro b hb
    obtain ⟨f, _, rfl⟩ := List.mem_map.1 hb
    exact npInterp_zero _ _ _ hrip0
  have hg1 : e.g1st = List.replicate frequencies.length e.params.gain_flatmax := by
    rw [Edfa.g1st, hdz, hrz, zipWith_replicate]
    simp
  have hvoa : e.voa = e.params.gain_flatmax - 20 := by
    rw [Edfa.voa, hg1, List.map_replicate, listMean_replicate _ hlen,
      lin2db_db2lin, hg, h20]
  have hΔ : e.deltax = 0 := by
    rw [Edfa.deltax, hg1, listMax_replicate _ hlen, listMin_replicate _ hlen,
      sub_self]
  rw [Edfa.gain_profile, if_pos (by rw [hΔ]; norm_num), Edfa.g2nd, hg1, hvoa,
    List.map_replicate]
  congr 1
  ring

/-- A concrete flat amplifier used to witness C5: full 96-point all-zero
`dgt` and `gain_ripple` tables, 20 dB gain target, and the all-zero
interpolated arrays for a two-channel comb. -/
def eC5 : Edfa :=
  { params := { dgt := List.replicate 96 0, gain_ripple := List.replicate 96 0,
                nf_ripple := List.replicate 96 0, nf_fit_coeff := [0] },
    operational := ⟨20, 0, 0⟩, effective_gain := 20,
    interpol_dgt := [0, 0], interpol_gain_ripple := [0, 0] }

/-- Witness for C5 at a concrete flat amplifier with two channels and a
nonuniform input power profile. -/
theorem c5_flat_ripple_gain_profile_witness :
    eC5.params.dgt = List.replicate 96 0 ∧
    eC5.params.gain_ripple = List.replicate 96 0 ∧
    eC5.gain_profile [1e-3, 2e-3] = List.replicate 2 20 := by
  have h0 : ∀ y ∈ List.replicate 96 (0 : ℝ), y = 0 := fun y hy =>
    List.eq_of_mem_replicate hy
  refine ⟨rfl, rfl, c5_flat_ripple_gain_profile eC5 [193.1e12, 193.15e12]
    [1e-3, 2e-3] ?_ ?_ ?_ ?_ ?_ rfl rfl⟩
  · exact h0
  · exact h0
  · show ([0, 0] : List ℝ) = _
    simp only [List.map_cons, List.map_nil]
    rw [show eC5.params.dgt = List.replicate 96 (0 : ℝ) from rfl,
      npInterp_zero _ _ _ h0, npInterp_zero _ _ _ h0]
  · show ([0, 0] : List ℝ) = _
    simp only [List.map_cons, List.map_nil]
    rw [show eC5.params.gain_ripple = List.replicate 96 (0 : ℝ) from rfl,
      npInterp_zero _ _ _ h0, npInterp_zero _ _ _ h0]
  · norm_num

/-! ## Lemmas for the gain-profile tolerance claim -/

theorem db2lin_zero : db2lin 0 = 1 := by
  norm_num [db2lin]

theorem db2lin_twenty : db2lin 20 = 100 := by
  rw [db2lin, show (20 : ℝ) / 10 = ((2 : ℕ) : ℝ) by norm_num, Real.rpow_natCast]
  norm_num

theorem db2lin_add (a b : ℝ) : db2lin (a + b) = db2lin a * db2lin b := by
  rw [db2lin, db2lin, db2lin, show (a + b) / 10 = a / 10 + b / 10 by ring,
    Real.rpow_add (by norm_num)]

theorem db2lin_sub (a b : ℝ) : db2lin (a - b) = db2lin a / db2lin b := by
  rw [db2lin, db2lin, db2lin, show (a - b) / 10 = a / 10 - b / 10 by ring,
    Real.rpow_sub (by norm_num)]

theorem db2lin_neg (a : ℝ) : db2lin (-a) = (db2lin a)⁻¹ := by
  rw [db2lin, db2lin, show -a / 10 = -(a / 10) by ring, Real.rpow_neg (by norm_num)]

theorem db2lin_lin2db (x : ℝ) (hx : 0 < x) : db2lin (lin2db x) = x := by
  rw [db2lin, lin2db, show 10 * Real.logb 10 x / 10 = Real.logb 10 x by ring,
    Real.rpow_logb (by norm_num) (by norm_num) hx]

theorem lin2db_div (a b : ℝ) (ha : a ≠ 0) (hb : b ≠ 0) :
    lin2db (a / b) = lin2db a - lin2db b := by
  rw [lin2db, lin2db, lin2db, Real.logb_div ha hb]
  ring

theorem lin2db_inv (x : ℝ) : lin2db x⁻¹ = -lin2db x := by
  rw [lin2db, lin2db, Real.logb_inv]
  ring

theorem lin2db_pos_of_one_lt (q : ℝ) (hq : 1 < q) : 0 < lin2db q :=
  mul_pos (by norm_num) (Real.logb_pos (by norm_num) hq)

theorem lin2db_neg_of_lt_one (q : ℝ) (h0 : 0 < q) (h1 : q < 1) : lin2db q < 0 :=
  mul_neg_of_pos_of_neg (by norm_num) (Real.logb_neg (by norm_num) h0 h1)

theorem lin2db_le_lin2db (x y : ℝ) (hx : 0 < x) (hxy : x ≤ y) :
    lin2db x ≤ lin2db y :=
  mul_le_mul_of_nonneg_left (Real.logb_le_logb_of_le (by norm_num) hx hxy)
    (by norm_num)

/-- An elementary rational lower bound for the dB value of a ratio above one,
from `log q ≥ 1 - 1/q` and `log 10 ≤ 9`. -/
theorem lin2db_lower (q : ℝ) (hq : 1 < q) : 10 * (1 - 1 / q) / 9 ≤ lin2db q := by
  have hq0 : 0 < q := by linarith
  have hlq : 1 - 1 / q ≤ Real.log q := by
    have h := Real.log_le_sub_one_of_pos (show (0 : ℝ) < 1 / q by positivity)
    rw [one_div, Real.log_inv] at h
    rw [one_div]
    linarith
  have hl10 : Real.log 10 ≤ 9 := by
    have := Real.log_le_sub_one_of_pos (show (0 : ℝ) < 10 by norm_num)
    linarith
  have hl10' : 0 < Real.log 10 := Real.log_pos (by norm_num)
  have hnn : 0 ≤ 1 - 1 / q := by
    have : 1 / q ≤ 1 := by
      rw [div_le_one hq0]
      linarith
    linarith
  have h1 : (1 - 1 / q) / 9 ≤ (1 - 1 / q) / Real.log 10 :=
    div_le_div_of_nonneg_left hnn hl10' hl10
  have h2 : (1 - 1 / q) / Real.log 10 ≤ Real.log q / Real.log 10 :=
    (div_le_div_iff_of_pos_right hl10').2 hlq
  rw [lin2db, Real.logb]
  linarith

/-- In an amplifier whose interpolated dgt is `[0, 0]` (flat) while the
interpolated ripple is `[0, 20]`, the solver's intermediate values: the first
gain estimate is `[0, 20]`, the ripple spread is 20 dB, and every tilt
scaling yields the same profile `[20 - lin2db 50.5, 40 - lin2db 50.5]` (the
tilt correction cannot move a flat dgt). -/
theorem flat_dgt_solver_values (e : Edfa) (hdgt : e.interpol_dgt = [0, 0])
    (hrip : e.interpol_gain_ripple = [0, 20]) (hfm : e.params.gain_flatmax = 0)
    (heff : e.effective_gain = 20) :
    e.g1st = [0, 20] ∧ e.deltax = 20 ∧
    (∀ x, e.gProfileAt x = [20 - lin2db 50.5, 40 - lin2db 50.5]) ∧
    (∀ pin, e.gain_profile pin = [20 - lin2db 50.5, 40 - lin2db 50.5]) := by
  have hg1 : e.g1st = [0, 20] := by
    rw [Edfa.g1st, hdgt, hrip, hfm]
    simp
  have hΔ : e.deltax = 20 := by
    rw [Edfa.deltax, hg1]
    simp [listMax, listMin]
  have hvoa : e.voa = lin2db 50.5 - 20 := by
    rw [Edfa.voa, hg1, heff]
    have : ([0, 20] : List ℝ).map db2lin = [1, 100] := by
      simp [db2lin_zero, db2lin_twenty]
    rw [this]
    norm_num [listMean]
  have hg2 : e.g2nd = [20 - lin2db 50.5, 40 - lin2db 50.5] := by
    rw [Edfa.g2nd, hg1, hvoa]
    simp only [List.map_cons, List.map_nil]
    norm_num
    ring
  have hgpx : ∀ x, e.gProfileAt x = [20 - lin2db 50.5, 40 - lin2db 50.5] := by
    intro x
    rw [Edfa.gProfileAt, hg2, hdgt]
    simp
  refine ⟨hg1, hΔ, hgpx, fun pin => ?_⟩
  rw [Edfa.gain_profile, if_neg (by rw [hΔ]; norm_num), hgpx]

/-- A concrete amplifier defeating the C7 tolerance claim at an input where
every value the source computes is finite: two channels with a genuinely
tilted dgt `[0, 1]` (fitted slope 1, so both secant slopes are nonzero),
interpolated ripple `[0, lin2db 2]` (spread about 3.01 dB), gain target 0 dB,
and reference input power `lin2db 3` dBm matching the input powers
`[2e-3, 1e-3]` W.  The 96-point tables are an example configuration whose
interpolation can produce those interpolated arrays (a query below the grid
start returns the first table entry, a query inside the flat region returns
the constant). -/
def eC7 : Edfa :=
  { params := { gain_flatmax := 0, gain_min := 0, p_max := 10,
                nf_fit_coeff := [0], nf_ripple := List.replicate 96 0,
                dgt := 0 :: List.replicate 95 1,
                gain_ripple := 0 :: List.replicate 95 (lin2db 2) },
    operational := ⟨0, 0, 0⟩, effective_gain := 0,
    interpol_dgt := [0, 1], interpol_gain_ripple := [0, lin2db 2],
    pin_db := lin2db 3 }

/-- Counterexample to C7 as stated: at `eC7` with input powers `[2e-3, 1e-3]`
the ripple spread `lin2db 2` exceeds the 0.05 dB threshold and the solver
takes exactly one finite secant correction step, yet the achieved average
gain implied by the returned profile undershoots the 0 dB effective gain by
at least `1/1620` dB (numerically about 0.029 dB), far beyond the 1e-11 dB
tolerance: one linear step cannot solve the nonlinear average-gain
equation. -/
theorem c7_counterexample :
    0.05 < |eC7.deltax| ∧
    ¬ (|poutDb [2e-3, 1e-3] (eC7.gain_profile [2e-3, 1e-3]) - eC7.pin_db -
        eC7.effective_gain| ≤ 1.0e-11) := by
  have hd1 : eC7.dgts1 = 0 := by
    rw [Edfa.dgts1]
    split
    · rw [Edfa.targ_slope]
      norm_num [eC7]
    · rfl
  have hg1 : eC7.g1st = [0, lin2db 2] := by
    rw [Edfa.g1st, hd1]
    norm_num [eC7]
  have hL2pos : (0 : ℝ) < lin2db 2 := lin2db_pos_of_one_lt 2 (by norm_num)
  have h59 : (5 : ℝ) / 9 ≤ lin2db 2 := by
    have := lin2db_lower 2 (by norm_num)
    norm_num at this
    linarith
  have hdbL2 : db2lin (lin2db 2) = 2 := db2lin_lin2db 2 (by norm_num)
  have hvoa : eC7.voa = lin2db (3 / 2) := by
    rw [Edfa.voa, hg1]
    rw [show ([0, lin2db 2] : List ℝ).map db2lin = [1, 2] by
      simp [db2lin_zero, hdbL2]]
    norm_num [listMean, eC7]
  have hg2 : eC7.g2nd = [-lin2db (3 / 2), lin2db 2 - lin2db (3 / 2)] := by
    rw [Edfa.g2nd, hg1, hvoa]
    simp
  have hA : db2lin (-lin2db (3 / 2)) = 2 / 3 := by
    rw [db2lin_neg, db2lin_lin2db _ (by norm_num)]
    norm_num
  have hB : db2lin (lin2db 2 - lin2db (3 / 2)) = 4 / 3 := by
    rw [db2lin_sub, hdbL2, db2lin_lin2db _ (by norm_num)]
    norm_num
  have hgavg : ∀ x : ℝ, eC7.gavgAt [2e-3, 1e-3] x =
      lin2db (4 / 3 + 4 / 3 * db2lin x) - lin2db 3 := by
    intro x
    rw [Edfa.gavgAt, Edfa.gProfileAt, hg2, show eC7.interpol_dgt = [(0 : ℝ), 1]
      from rfl, poutDb]
    simp only [List.zipWith_cons_cons, List.zipWith_nil, List.sum_cons,
      List.sum_nil, zero_mul, add_zero, one_mul]
    rw [db2lin_add, hA, hB, show eC7.pin_db = lin2db 3 from rfl]
    norm_num
  have hgp0 : eC7.gProfileAt 0 = eC7.g2nd := by
    rw [Edfa.gProfileAt, hg2, show eC7.interpol_dgt = [(0 : ℝ), 1] from rfl]
    simp [hg2]
  have hd2 : db2lin (eC7.dgts2 [2e-3, 1e-3]) = 9 / 8 := by
    have h0 := hgavg 0
    rw [Edfa.gavgAt, hgp0, db2lin_zero] at h0
    rw [Edfa.dgts2, show eC7.effective_gain = (0 : ℝ) from rfl, h0]
    rw [show (0 : ℝ) - (lin2db (4 / 3 + 4 / 3 * 1) - lin2db 3) =
      lin2db 3 - lin2db (8 / 3) by norm_num]
    rw [db2lin_sub, db2lin_lin2db _ (by norm_num), db2lin_lin2db _ (by norm_num)]
    norm_num
  have hdx : eC7.deltax = lin2db 2 := by
    rw [Edfa.deltax, hg1]
    simp [listMax, listMin]
    rw [max_eq_right hL2pos.le, min_eq_left hL2pos.le, sub_zero]
  have hcond1 : ¬ (|eC7.deltax| ≤ 0.05) := by
    rw [hdx, abs_of_pos hL2pos]
    intro h
    linarith
  have hgc : eC7.gavgAt [2e-3, 1e-3] (eC7.xcent [2e-3, 1e-3]) =
      lin2db (17 / 18) := by
    rw [hgavg, Edfa.xcent, hd2]
    rw [show (4 : ℝ) / 3 + 4 / 3 * (9 / 8) = 17 / 6 by norm_num]
    rw [show (17 : ℝ) / 18 = 17 / 6 / 3 by norm_num,
      lin2db_div ((17 : ℝ) / 6) 3 (by norm_num) (by norm_num)]
  have hxh : db2lin (eC7.xhigh [2e-3, 1e-3]) = 9 / 4 := by
    rw [Edfa.xhigh, db2lin_add, hd2, hdx, hdbL2]
    norm_num
  have hgh : eC7.gavgAt [2e-3, 1e-3] (eC7.xhigh [2e-3, 1e-3]) =
      lin2db (13 / 9) := by
    rw [hgavg, hxh]
    rw [show (4 : ℝ) / 3 + 4 / 3 * (9 / 4) = 13 / 3 by norm_num]
    rw [show (13 : ℝ) / 9 = 13 / 3 / 3 by norm_num,
      lin2db_div ((13 : ℝ) / 3) 3 (by norm_num) (by norm_num)]
  have hs2 : eC7.slope2 [2e-3, 1e-3] = lin2db (26 / 17) / lin2db 2 := by
    rw [Edfa.slope2, hgc, hgh]
    rw [show eC7.xcent [2e-3, 1e-3] - eC7.xhigh [2e-3, 1e-3] = -eC7.deltax by
      rw [Edfa.xcent, Edfa.xhigh]; ring, hdx]
    rw [show lin2db ((17 : ℝ) / 18) - lin2db (13 / 9) = -lin2db (26 / 17) by
      rw [← lin2db_div _ _ (by norm_num) (by norm_num), ← lin2db_inv]; norm_num]
    rw [neg_div_neg_eq]
  have h1817 : -lin2db ((17 : ℝ) / 18) = lin2db (18 / 17) := by
    rw [← lin2db_inv]
    norm_num
  have hgcneg : lin2db ((17 : ℝ) / 18) < 0 :=
    lin2db_neg_of_lt_one _ (by norm_num) (by norm_num)
  have h1817low : (5 : ℝ) / 81 ≤ lin2db (18 / 17) := by
    have := lin2db_lower (18 / 17) (by norm_num)
    norm_num at this
    linarith
  have habs : ¬ (|eC7.effective_gain - eC7.gavgAt [2e-3, 1e-3]
      (eC7.xcent [2e-3, 1e-3])| ≤ 1.0e-11) := by
    rw [hgc, show eC7.effective_gain = (0 : ℝ) from rfl, zero_sub, abs_neg,
      abs_of_neg hgcneg, h1817]
    intro h
    linarith
  have hnlt : ¬ (eC7.effective_gain < eC7.gavgAt [2e-3, 1e-3]
      (eC7.xcent [2e-3, 1e-3])) := by
    rw [hgc, show eC7.effective_gain = (0 : ℝ) from rfl]
    exact not_lt.2 hgcneg.le
  have hd3 : eC7.dgts3 [2e-3, 1e-3] = eC7.xcent [2e-3, 1e-3] +
      lin2db (18 / 17) * lin2db 2 / lin2db (26 / 17) := by
    rw [Edfa.dgts3, if_neg habs, if_neg hnlt, hs2, hgc,
      show eC7.effective_gain = (0 : ℝ) from rfl]
    rw [show -lin2db ((17 : ℝ) / 18) + 0 = lin2db (18 / 17) by
      rw [← h1817]; ring]
    rw [div_div_eq_mul_div]
  have h2617pos : (0 : ℝ) < lin2db (26 / 17) :=
    lin2db_pos_of_one_lt _ (by norm_num)
  have hkey : db2lin (lin2db (18 / 17) * lin2db 2 / lin2db (26 / 17)) =
      (2 : ℝ) ^ (lin2db (18 / 17) / lin2db (26 / 17)) := by
    rw [db2lin]
    rw [show lin2db (18 / 17) * lin2db 2 / lin2db (26 / 17) / 10 =
      Real.logb 10 2 * (lin2db (18 / 17) / lin2db (26 / 17)) by
        rw [show lin2db 2 = 10 * Real.logb 10 2 from rfl]; ring]
    rw [Real.rpow_mul (by norm_num),
      Real.rpow_logb (by norm_num) (by norm_num) (by norm_num)]
  have hθ : lin2db (18 / 17) / lin2db (26 / 17) ≤ 7 / 50 := by
    rw [div_le_div_iff₀ h2617pos (by norm_num : (0 : ℝ) < 50)]
    have hle : Real.logb 10 (((18 : ℝ) / 17) ^ (50 : ℕ)) ≤
        Real.logb 10 (((26 : ℝ) / 17) ^ (7 : ℕ)) :=
      Real.logb_le_logb_of_le (by norm_num) (by positivity) (by norm_num)
    rw [Real.logb_pow, Real.logb_pow] at hle
    push_cast at hle
    rw [lin2db, lin2db]
    linarith
  have h2exp : (2 : ℝ) ^ (lin2db (18 / 17) / lin2db (26 / 17)) ≤
      (2 : ℝ) ^ ((7 : ℝ) / 50) :=
    Real.rpow_le_rpow_of_exponent_le (by norm_num) hθ
  have hfinexp : (2 : ℝ) ^ ((7 : ℝ) / 50) ≤ 111 / 100 := by
    by_contra hcon
    push_neg at hcon
    have hp1 : ((111 : ℝ) / 100) ^ (50 : ℕ) <
        ((2 : ℝ) ^ ((7 : ℝ) / 50)) ^ (50 : ℕ) :=
      pow_lt_pow_left₀ hcon (by norm_num) (by norm_num)
    have hp2 : ((2 : ℝ) ^ ((7 : ℝ) / 50)) ^ (50 : ℕ) = 128 := by
      rw [← Real.rpow_natCast ((2 : ℝ) ^ ((7 : ℝ) / 50)) 50,
        ← Real.rpow_mul (by norm_num)]
      rw [show (7 : ℝ) / 50 * ((50 : ℕ) : ℝ) = ((7 : ℕ) : ℝ) by push_cast; ring]
      rw [Real.rpow_natCast]
      norm_num
    rw [hp2] at hp1
    norm_num at hp1
  have hwpos : (0 : ℝ) < db2lin (eC7.dgts3 [2e-3, 1e-3]) := db2lin_pos _
  have hw : db2lin (eC7.dgts3 [2e-3, 1e-3]) ≤ 999 / 800 := by
    rw [hd3, db2lin_add, Edfa.xcent, hd2, hkey]
    linarith [h2exp.trans hfinexp]
  have hach : poutDb [2e-3, 1e-3] (eC7.gain_profile [2e-3, 1e-3]) - eC7.pin_db -
      eC7.effective_gain ≤ -(1 / 1620) := by
    rw [Edfa.gain_profile, if_neg hcond1]
    rw [show poutDb [2e-3, 1e-3] (eC7.gProfileAt (eC7.dgts3 [2e-3, 1e-3])) -
        eC7.pin_db = eC7.gavgAt [2e-3, 1e-3] (eC7.dgts3 [2e-3, 1e-3]) from rfl]
    rw [hgavg, show eC7.effective_gain = (0 : ℝ) from rfl, sub_zero]
    have harg : (4 : ℝ) / 3 + 4 / 3 * db2lin (eC7.dgts3 [2e-3, 1e-3]) ≤
        1799 / 600 := by
      linarith [hw]
    have hpos : (0 : ℝ) < 4 / 3 + 4 / 3 * db2lin (eC7.dgts3 [2e-3, 1e-3]) := by
      linarith [hwpos]
    have h1 := lin2db_le_lin2db _ _ hpos harg
    have h2 : lin2db ((1799 : ℝ) / 600) - lin2db 3 = lin2db (1799 / 1800) := by
      rw [show (1799 : ℝ) / 1800 = 1799 / 600 / 3 by norm_num,
        lin2db_div ((1799 : ℝ) / 600) 3 (by norm_num) (by norm_num)]
    have h3 : lin2db ((1799 : ℝ) / 1800) = -lin2db (1800 / 1799) := by
      rw [← lin2db_inv]
      norm_num
    have h4 : (1 : ℝ) / 1620 ≤ lin2db (1800 / 1799) := by
      have := lin2db_lower (1800 / 1799) (by norm_num)
      norm_num at this
      linarith
    linarith [h1]
  refine ⟨?_, ?_⟩
  · rw [hdx, abs_of_pos hL2pos]
    linarith
  · intro hcon
    have h := (abs_le.1 hcon).1
    linarith [hach]

/-- C7 amended: when the ripple spread exceeds the 0.05 dB degenerate
threshold, the achieved average gain implied by the returned profile meets the
1e-11 dB tolerance whenever the solver's center estimate already meets it (in
which case the profile at the center tilt scaling is returned unchanged); the
single secant correction step taken otherwise carries no tolerance
guarantee. -/
theorem c7_amended_gain_tolerance (e : Edfa) (pin : List ℝ)
    (h1 : ¬ (|e.deltax| ≤ 0.05))
    (h2 : |e.effective_gain - e.gavgAt pin (e.xcent pin)| ≤ 1.0e-11) :
    |poutDb pin (e.gain_profile pin) - e.pin_db - e.effective_gain| ≤ 1.0e-11 := by
  rw [Edfa.gain_profile, if_neg h1, Edfa.dgts3, if_pos h2]
  show |e.gavgAt pin (e.xcent pin) - e.effective_gain| ≤ 1.0e-11
  rw [abs_sub_comm]
  exact h2

/-- An amplifier with a flat dgt, 20 dB interpolated ripple spread and the
uniform input profile `[1e-3, 1e-3]` W (so the reference input power is
`lin2db 2` dBm): here the center estimate is exact, and the solver takes the
within-tolerance branch (`dgts3 = xcent`), in which every value the source
computes is finite.  The 96-point tables are an example configuration whose
interpolation can produce those interpolated arrays. -/
def eC7b : Edfa :=
  { params := { gain_flatmax := 0, gain_min := 0, p_max := 30,
                nf_fit_coeff := [0], nf_ripple := List.replicate 96 0,
                dgt := List.replicate 96 0,
                gain_ripple := 0 :: List.replicate 95 20 },
    operational := ⟨20, 0, 0⟩, effective_gain := 20,
    interpol_dgt := [0, 0], interpol_gain_ripple := [0, 20], pin_db := lin2db 2 }

/-- Witness for the amended C7: at `eC7b` with the uniform input profile the
ripple spread exceeds the threshold, the center estimate achieves the target
exactly, and the returned profile meets the tolerance. -/
theorem c7_amended_gain_tolerance_witness :
    ¬ (|eC7b.deltax| ≤ 0.05) ∧
    |eC7b.effective_gain - eC7b.gavgAt [1e-3, 1e-3] (eC7b.xcent [1e-3, 1e-3])| ≤
      1.0e-11 ∧
    |poutDb [1e-3, 1e-3] (eC7b.gain_profile [1e-3, 1e-3]) - eC7b.pin_db -
      eC7b.effective_gain| ≤ 1.0e-11 := by
  obtain ⟨-, hΔ, hgpx, -⟩ := flat_dgt_solver_values eC7b rfl rfl rfl rfl
  have h1 : ¬ (|eC7b.deltax| ≤ 0.05) := by rw [hΔ]; norm_num
  have hsum : (List.zipWith (fun p gi => p * 1e3 * db2lin gi) [1e-3, 1e-3]
      [20 - lin2db 50.5, 40 - lin2db 50.5]).sum =
      db2lin (20 - lin2db 50.5) + db2lin (40 - lin2db 50.5) := by
    simp
    norm_num
  have hb : db2lin (40 - lin2db 50.5) = db2lin (20 - lin2db 50.5) * 100 := by
    rw [db2lin, db2lin, show (40 - lin2db 50.5) / 10 =
      (20 - lin2db 50.5) / 10 + 2 by ring,
      Real.rpow_add (by norm_num), show ((2 : ℝ) = ((2 : ℕ) : ℝ)) by norm_num,
      Real.rpow_natCast]
    norm_num
  have hlog : lin2db (db2lin (20 - lin2db 50.5) * 101) =
      20 - lin2db 50.5 + lin2db 101 := by
    rw [lin2db, Real.logb_mul (ne_of_gt (db2lin_pos _)) (by norm_num), mul_add]
    rw [show (10 : ℝ) * Real.logb 10 (db2lin (20 - lin2db 50.5)) =
      lin2db (db2lin (20 - lin2db 50.5)) from rfl, lin2db_db2lin]
    rfl
  have hdiv : lin2db 101 - lin2db 2 = lin2db 50.5 := by
    rw [lin2db, lin2db, lin2db, ← mul_sub,
      ← Real.logb_div (by norm_num) (by norm_num)]
    norm_num
  have h2 : |eC7b.effective_gain -
      eC7b.gavgAt [1e-3, 1e-3] (eC7b.xcent [1e-3, 1e-3])| ≤ 1.0e-11 := by
    have hgavg : eC7b.gavgAt [1e-3, 1e-3] (eC7b.xcent [1e-3, 1e-3]) = 20 := by
      rw [Edfa.gavgAt, hgpx, poutDb, hsum, hb,
        show db2lin (20 - lin2db 50.5) + db2lin (20 - lin2db 50.5) * 100 =
          db2lin (20 - lin2db 50.5) * 101 from by ring, hlog]
      show 20 - lin2db 50.5 + lin2db 101 - lin2db 2 = 20
      have := hdiv
      linarith
    rw [hgavg]
    show |(20 : ℝ) - 20| ≤ 1.0e-11
    norm_num
  exact ⟨h1, h2, c7_amended_gain_tolerance eC7b [1e-3, 1e-3] h1 h2⟩

end

end GnpyCore
